import Mathlib

/-!
Shallow embedding of `non_semantic_speech_benchmark/data_prep/beam_dofns.py`.

Audio samples and embedding entries are modelled as rationals (the float32
values of the source), numpy arrays as a dtype tag plus a nested-list tensor,
`tf.train.Example` as an association list of features, and each raised Python
exception (`ValueError`, `AssertionError`, `KeyError`, `IndexError`) as a
constructor of an explicit error type, so every fallible operation returns
`Except Err _`.
-/

set_option allowUnsafeReducibility true
attribute [semireducible] Rat.add Rat.mul Rat.div Rat.inv Rat.neg Rat.sub Rat.blt

namespace BeamDoFns

/-- Numpy dtype tags; only float32 is accepted by the validation gates. -/
inductive DType
  | float32
  | float64
  | otherDtype
deriving DecidableEq, Repr, Inhabited

/-- A numpy tensor of rank 0..3, as nested lists of rational sample values. -/
inductive Tensor
  | t0 (x : ℚ)
  | t1 (d : List ℚ)
  | t2 (d : List (List ℚ))
  | t3 (d : List (List (List ℚ)))
deriving DecidableEq, Repr, Inhabited

/-- `ndarray.ndim`. -/
def Tensor.ndim : Tensor → Nat
  | t0 _ => 0
  | t1 _ => 1
  | t2 _ => 2
  | t3 _ => 3

/-- `ndarray.shape` (trailing axes read off the first rows, as numpy arrays
are rectangular). -/
def Tensor.shape : Tensor → List Nat
  | t0 _ => []
  | t1 l => [l.length]
  | t2 ls => [ls.length, (ls.headD []).length]
  | t3 ts => [ts.length, (ts.headD []).length, ((ts.headD []).headD []).length]

/-- `ndarray.size`. -/
def Tensor.size (t : Tensor) : Nat := t.shape.foldr (· * ·) 1

/-- Indexing on the first axis, `a[i]`. -/
def Tensor.sliceFirst : Tensor → Nat → Tensor
  | .t0 x, _ => .t0 x
  | .t1 l, i => .t0 (l.getD i 0)
  | .t2 ls, i => .t1 (ls.getD i [])
  | .t3 ts, i => .t2 (ts.getD i [])

/-- A numpy array: dtype tag plus tensor data. -/
structure PyArray where
  dtype : DType
  data : Tensor
deriving DecidableEq, Repr, Inhabited

def PyArray.ndim (a : PyArray) : Nat := a.data.ndim

def PyArray.sliceFirst (a : PyArray) (i : Nat) : PyArray := ⟨a.dtype, a.data.sliceFirst i⟩

/-- A Python value returned by a pluggable model call: either an ndarray or
some other object (failing `isinstance(x, np.ndarray)`). -/
inductive PyValue
  | ndarray (a : PyArray)
  | notArray
deriving DecidableEq, Repr, Inhabited

/-- One `tf.train.Feature`: the union of the three value lists. -/
structure Feature where
  float_list : List ℚ
  int64_list : List Int
  bytes_list : List String
deriving DecidableEq, Repr, Inhabited

/-- A `tf.train.Example`: named features. -/
structure TFExample where
  features : List (String × Feature)
deriving DecidableEq, Repr, Inhabited

/-- `ex.features.feature[k]`, `None` when the key is absent. -/
def TFExample.getFeature (ex : TFExample) (k : String) : Option Feature :=
  (ex.features.find? (fun p => p.1 == k)).map Prod.snd

/-- The exceptions raised by the DoFns, tagged by the spec's error taxonomy:
`missingField`/`emptyAudio`/`malformedRate`/`configuration` for the
`ValueError`s of audio and rate extraction, `invalidProjection` for a bad
custom-projector output, `contract` for the shape/dtype `ValueError`s on
model outputs, and `keyError`/`indexError`/`assertionFailed` for the raw
Python exceptions of Stage C. -/
inductive Err
  | missingField (key : String)
  | emptyAudio
  | malformedRate
  | configuration
  | invalidProjection
  | contract (diag : String)
  | missingOutputKey (key : String)
  | keyError (key : String)
  | indexError
  | assertionFailed
  | valueError (diag : String)
deriving DecidableEq, Repr, Inhabited

/-- Decidable equality for `Except` results, so concrete pipeline runs can
be settled by `decide`. -/
instance exceptDecEq {ε α : Type} [DecidableEq ε] [DecidableEq α] :
    DecidableEq (Except ε α) := fun a b =>
  match a, b with
  | .ok x, .ok y =>
    if h : x = y then isTrue (by rw [h]) else isFalse (by intro hh; cases hh; exact h rfl)
  | .error x, .error y =>
    if h : x = y then isTrue (by rw [h]) else isFalse (by intro hh; cases hh; exact h rfl)
  | .ok _, .error _ => isFalse (by intro hh; cases hh)
  | .error _, .ok _ => isFalse (by intro hh; cases hh)

/-- Python truthiness of an optional string (`None` and `""` are falsy). -/
def truthyStr : Option String → Bool
  | none => false
  | some s => !(s == "")

/-- Python truthiness of an optional integer (`None` and `0` are falsy). -/
def truthyInt : Option Int → Bool
  | none => false
  | some n => !(n == 0)

/-- Python truthiness of an optional natural (`None` and `0` are falsy). -/
def truthyNat : Option Nat → Bool
  | none => false
  | some n => !(n == 0)

/-- Python `int()` applied to a float: truncation toward zero
(`Int.tdiv` of the reduced numerator by the denominator). -/
def pyIntOfRat (q : ℚ) : Int := q.num.tdiv (q.den : Int)

/-- Decimal digits of a natural number, most significant first (the characters
of Python `str(n)` for `n ≥ 0`), fuel-based so it reduces definitionally. -/
def natDecimalDigitsAux : Nat → Nat → List Char
  | 0, _ => []
  | fuel + 1, n =>
    if n < 10 then [Char.ofNat (48 + n)]
    else natDecimalDigitsAux fuel (n / 10) ++ [Char.ofNat (48 + n % 10)]

/-- Decimal digits of a natural number, most significant first. -/
def natDecimalDigits (n : Nat) : List Char := natDecimalDigitsAux (n + 1) n

/-- Python `str(n)` for an integer `n` (decimal form, `-` sign for negatives). -/
def pyStrOfInt (n : Int) : String :=
  if n < 0 then "-" ++ String.mk (natDecimalDigits n.natAbs)
  else String.mk (natDecimalDigits n.toNat)

/-- Configuration of `ComputeEmbeddingMapFn.__init__` (the pluggable
functions `feature_fn`, `module_call_fn`, `setup_fn` and the resampler are
passed separately to the operations that use them, so configurations stay
decidable data). -/
structure ConfigA where
  name : String
  audio_key : String
  sample_rate_key : Option String
  sample_rate : Option Int
  average_over_time : Bool
  normalize_to_pm_one : Bool
  model_input_min_length : Option Nat
  target_sample_rate : Int
deriving DecidableEq, Repr, Inhabited

/-- `ComputeEmbeddingMapFn.__init__`: raises `ValueError` unless exactly one
of `sample_rate_key` and `sample_rate` is `None`
(`if not (self._sample_rate_key is None) ^ (self._sample_rate is None)`). -/
def initA (cfg : ConfigA) : Except Err ConfigA :=
  if Bool.xor cfg.sample_rate_key.isNone cfg.sample_rate.isNone then .ok cfg
  else .error .configuration

/-- Modelled from the spec: `data_prep_utils.tfexample_audio_to_npfloat32` is
not among the sources (only its caller is). Per the spec (§4.1), it reads the
audio feature as float32 samples; when normalization to [-1, 1] is requested,
integer-encoded samples are scaled by their representable range (int16, so
32768), while floating-point samples are assumed already normalized. -/
def tfexample_audio_to_npfloat32 (ex : TFExample) (key : String)
    (normalize_to_pm_one : Bool) : List ℚ :=
  match ex.getFeature key with
  | none => []
  | some f =>
    if f.float_list ≠ [] then f.float_list
    else if normalize_to_pm_one then f.int64_list.map (fun n => (n : ℚ) / 32768)
    else f.int64_list.map (fun n => (n : ℚ))

/-- `ComputeEmbeddingMapFn._read_audio_from_tfexample`: key-presence check,
extraction, and the empty-audio check. -/
def read_audio_from_tfexample (cfg : ConfigA) (ex : TFExample) (_k : String) :
    Except Err (List ℚ) :=
  if (ex.getFeature cfg.audio_key).isNone then .error (.missingField cfg.audio_key)
  else
    let audio := tfexample_audio_to_npfloat32 ex cfg.audio_key cfg.normalize_to_pm_one
    if audio.length = 0 then .error .emptyAudio
    else .ok audio

/-- `ComputeEmbeddingMapFn._read_sample_rate_from_tfexample`. The populated-
representation check is the source's `not len(float_list) ^ len(int64_list)`,
a bitwise xor of the two lengths. `int()` coercion of a float truncates
toward zero. -/
def read_sample_rate_from_tfexample (cfg : ConfigA) (ex : TFExample) :
    Except Err Int :=
  if truthyStr cfg.sample_rate_key then
    let srk := cfg.sample_rate_key.getD ""
    match ex.getFeature srk with
    | none => .error (.missingField srk)
    | some f =>
      if Nat.xor f.float_list.length f.int64_list.length = 0 then .error .malformedRate
      else if f.float_list ≠ [] then .ok (pyIntOfRat (f.float_list.headD 0))
      else .ok (f.int64_list.headD 0)
  else
    if truthyInt cfg.sample_rate then .ok (cfg.sample_rate.getD 0)
    else .error .configuration

/-- The doubled reflection cycle used by numpy symmetric padding on the right:
the appended samples read the waveform backwards, then forwards, repeating. -/
def symPadCycle (l : List ℚ) : List ℚ := l.reverse ++ l

/-- `np.pad(l, [0, delta], mode='symmetric')`: the original samples followed
by `delta` mirror-reflected samples. -/
def symPadRight (l : List ℚ) (delta : Nat) : List ℚ :=
  l ++ (List.range delta).map (fun i => (symPadCycle l).getD (i % (symPadCycle l).length) 0)

/-- `ComputeEmbeddingMapFn._audio_to_features`: a configured `feature_fn`
must return a float32 ndarray; otherwise the raw audio is used, right-padded
symmetrically up to `model_input_min_length` when it is shorter (numpy
raises on padding an empty axis). -/
def audio_to_features (cfg : ConfigA) (featureFn : Option (List ℚ → Int → PyValue))
    (audio : List ℚ) (sample_rate : Int) : Except Err PyArray :=
  match featureFn with
  | some f =>
    match f audio sample_rate with
    | .notArray => .error .invalidProjection
    | .ndarray a => if a.dtype ≠ .float32 then .error .invalidProjection else .ok a
  | none =>
    match cfg.model_input_min_length with
    | some m =>
      if m ≠ 0 ∧ audio.length < m then
        if audio.length = 0 then .error (.valueError "pad empty axis")
        else .ok ⟨.float32, .t1 (symPadRight audio (m - audio.length))⟩
      else .ok ⟨.float32, .t1 audio⟩
    | none => .ok ⟨.float32, .t1 audio⟩

/-- `ComputeEmbeddingMapFn.read_and_preprocess_audio`: extract audio, resolve
the sample rate, resample when the rates differ (the resampler is a pluggable
numerical routine, passed in as `resampleFn`), then project to features. -/
def read_and_preprocess_audio (cfg : ConfigA)
    (featureFn : Option (List ℚ → Int → PyValue))
    (resampleFn : List ℚ → Int → Int → List ℚ)
    (k : String) (ex : TFExample) : Except Err (PyArray × Int) :=
  match read_audio_from_tfexample cfg ex k with
  | .error e => .error e
  | .ok audio =>
    match read_sample_rate_from_tfexample cfg ex with
    | .error e => .error e
    | .ok sample_rate =>
      let audio2 := if sample_rate ≠ cfg.target_sample_rate then
          resampleFn audio sample_rate cfg.target_sample_rate
        else audio
      let sr2 := if sample_rate ≠ cfg.target_sample_rate then cfg.target_sample_rate
        else sample_rate
      match audio_to_features cfg featureFn audio2 sr2 with
      | .error e => .error e
      | .ok model_input => .ok (model_input, sr2)

/-- Sum of a list of rationals. -/
def listSum (l : List ℚ) : ℚ := l.foldr (· + ·) 0

/-- Arithmetic mean of a list of rationals. -/
def listMean (l : List ℚ) : ℚ := listSum l / (l.length : ℚ)

/-- `np.mean(rows, axis=0)` on a 2D array: column-wise means. -/
def meanAxis0Rows (ls : List (List ℚ)) : List ℚ :=
  (List.range (ls.headD []).length).map fun j => listMean (ls.map fun r => r.getD j 0)

/-- `np.mean(a, axis=0, keepdims=True)` on a 2D array. -/
def meanAxis0Keep (a : PyArray) : PyArray :=
  match a.data with
  | .t2 ls => ⟨a.dtype, .t2 [meanAxis0Rows ls]⟩
  | t => ⟨a.dtype, t⟩

/-- `np.mean(ts, axis=0, keepdims=False)` on a 3D array: chunk-wise means,
yielding a 2D array. -/
def meanAxis0Of3 (ts : List (List (List ℚ))) : List (List ℚ) :=
  (List.range (ts.headD []).length).map fun i =>
    (List.range ((ts.headD []).headD []).length).map fun j =>
      listMean (ts.map fun m => (m.getD i []).getD j 0)

/-- The Stage B reduction at lines 264-265: mean over the chunk axis
(`keepdims=False`) followed by mean over the time axis (`keepdims=True`). -/
def meanChunkThenTime (a : PyArray) : PyArray :=
  match a.data with
  | .t3 ts => ⟨a.dtype, .t2 [meanAxis0Rows (meanAxis0Of3 ts)]⟩
  | t => ⟨a.dtype, t⟩

/-- `np.mean(x, axis=1, keepdims=True)` on a 3D array (the Stage C
time-averaging). -/
def meanAxis1Keep (a : PyArray) : PyArray :=
  match a.data with
  | .t3 ts => ⟨a.dtype, .t3 (ts.map fun m => [meanAxis0Rows m])⟩
  | t => ⟨a.dtype, t⟩

/-- `ComputeEmbeddingMapFn.process` as an exception-or-result function: the
model call is validated (ndarray, 2-D, float32, in that order), then
optionally time-averaged, and the single `(key, embedding)` pair is yielded. -/
def processAE (cfg : ConfigA) (featureFn : Option (List ℚ → Int → PyValue))
    (resampleFn : List ℚ → Int → Int → List ℚ)
    (moduleCallFn : PyArray → Int → PyValue)
    (k : String) (ex : TFExample) : Except Err (String × PyArray) :=
  match read_and_preprocess_audio cfg featureFn resampleFn k ex with
  | .error e => .error e
  | .ok (model_input, sample_rate) =>
    match moduleCallFn model_input sample_rate with
    | .notArray => .error (.contract "embedding_2d wrong type")
    | .ndarray embedding_2d =>
      if embedding_2d.ndim ≠ 2 then .error (.contract "embedding_2d wrong dims")
      else if embedding_2d.dtype ≠ .float32 then .error (.contract "embedding_2d wrong dtype")
      else
        let embedding := if cfg.average_over_time then meanAxis0Keep embedding_2d
          else embedding_2d
        .ok (k, embedding)

/-- `ComputeEmbeddingMapFn.process` as a generator run: the records yielded,
and the exception that terminated it, if any (every raise in the source
occurs before the single `yield`). -/
def processA (cfg : ConfigA) (featureFn : Option (List ℚ → Int → PyValue))
    (resampleFn : List ℚ → Int → Int → List ℚ)
    (moduleCallFn : PyArray → Int → PyValue)
    (k : String) (ex : TFExample) : List (String × PyArray) × Option Err :=
  match processAE cfg featureFn resampleFn moduleCallFn k ex with
  | .ok out => ([out], none)
  | .error e => ([], some e)

/-- Whether a model-call result violates the Stage A embedding contract:
not an ndarray, not 2-dimensional, or not float32. -/
def violates2dContract : PyValue → Bool
  | .notArray => true
  | .ndarray a => a.ndim != 2 || a.dtype != DType.float32

/-- Whether an error is an `EmbeddingContractViolation` in the spec's
taxonomy (a shape/dtype/type `ValueError` on a model output). -/
def Err.isContractViolation : Err → Bool
  | .contract _ => true
  | _ => false

/-- Extra configuration of `ComputeMultipleEmbeddingsFromSingleModel.__init__`
(Stage B): the inherited `output_key` holds a list of output keys. -/
structure ConfigB where
  base : ConfigA
  output_keys : List String
  embedding_names : List String
  chunk_len : Option Nat
  embedding_length : Option Nat
deriving DecidableEq, Repr, Inhabited

/-- Fuel-based splitting into contiguous `c`-sized pieces, dropping the
trailing remainder. -/
def chunksOfAux : Nat → List ℚ → Nat → List (List ℚ)
  | 0, _, _ => []
  | fuel + 1, l, c =>
    if c = 0 ∨ l.length < c then []
    else l.take c :: chunksOfAux fuel (l.drop c) c

/-- Contiguous, non-overlapping `c`-sized chunks of `l`, trailing remainder
dropped. -/
def chunksOf (l : List ℚ) (c : Nat) : List (List ℚ) := chunksOfAux l.length l c

/-- Modelled from the spec: `data_prep_utils.get_chunked_audio_fn` is not
among the sources (only its caller is). Per the spec (§4.4), it splits a
waveform into contiguous, non-overlapping segments of `chunk_len`, with a
deterministic trailing-remainder policy (drop), yielding a
`(num_chunks, chunk_len)` array. -/
def get_chunked_audio_fn (a : PyArray) (chunk_len : Nat) : PyArray :=
  match a.data with
  | .t1 l => ⟨a.dtype, .t2 (chunksOf l chunk_len)⟩
  | t => ⟨a.dtype, t⟩

/-- `ComputeMultipleEmbeddingsFromSingleModel.tfex_to_chunked_audio`:
preprocess, then chunk when a chunk length is configured and the input is at
least that long. -/
def tfex_to_chunked_audio (cfg : ConfigB)
    (featureFn : Option (List ℚ → Int → PyValue))
    (resampleFn : List ℚ → Int → Int → List ℚ)
    (k : String) (ex : TFExample) : Except Err (PyArray × Int) :=
  match read_and_preprocess_audio cfg.base featureFn resampleFn k ex with
  | .error e => .error e
  | .ok (model_input, sample_rate) =>
    if truthyNat cfg.chunk_len then
      let c := cfg.chunk_len.getD 0
      if model_input.data.shape.headD 0 ≥ c then
        .ok (get_chunked_audio_fn model_input c, sample_rate)
      else .ok (model_input, sample_rate)
    else .ok (model_input, sample_rate)

/-- `np.expand_dims(a, axis=0)` for a 1-D array (the only use site). -/
def expandDims0 (a : PyArray) : PyArray :=
  match a.data with
  | .t1 l => ⟨a.dtype, .t2 [l]⟩
  | t => ⟨a.dtype, t⟩

/-- Dictionary lookup in a model output mapping. -/
def lookupOut (tfOut : List (String × PyArray)) (key : String) : Option PyArray :=
  (tfOut.find? (fun p => p.1 == key)).map Prod.snd

/-- Sequential effectful map over a list, failing at the first error (the
shape of the Stage B per-name loop). -/
def exceptMapM (f : α → Except Err β) : List α → Except Err (List β)
  | [] => .ok []
  | x :: xs =>
    match f x with
    | .error e => .error e
    | .ok y =>
      match exceptMapM f xs with
      | .error e => .error e
      | .ok ys => .ok (y :: ys)

/-- One iteration of the Stage B per-name loop (lines 253-273): look up the
output key, check 3-D and float32, reduce over the chunk axis then the time
axis, and run the batch-dim and embedding-length checks. -/
def processBName (avg : Bool) (elen : Option Nat) (tfOut : List (String × PyArray))
    (nameKey : String × String) : Except Err (String × PyArray) :=
  match lookupOut tfOut nameKey.2 with
  | none => .error (.missingOutputKey nameKey.2)
  | some cur_emb =>
    if cur_emb.ndim ≠ 3 then .error (.contract "wrong output dim size")
    else if cur_emb.dtype ≠ .float32 then .error (.contract "wrong dtype")
    else
      let embedding_2d := meanChunkThenTime cur_emb
      if avg ∧ embedding_2d.data.shape.headD 0 ≠ 1 then .error (.contract "wrong batch dim")
      else if truthyNat elen ∧ embedding_2d.data.shape.getD 1 0 ≠ elen.getD 0 then
        .error (.contract "wrong output dim")
      else .ok (nameKey.1, embedding_2d)

/-- `ComputeMultipleEmbeddingsFromSingleModel.process`: chunk, expand a 1-D
input to a single chunk, call the model once, then build the named embedding
dictionary and yield `(key, example, dict)`. -/
def processBE (cfg : ConfigB) (featureFn : Option (List ℚ → Int → PyValue))
    (resampleFn : List ℚ → Int → Int → List ℚ)
    (moduleCallFn : PyArray → List (String × PyArray))
    (k : String) (ex : TFExample) :
    Except Err (String × TFExample × List (String × PyArray)) :=
  match tfex_to_chunked_audio cfg featureFn resampleFn k ex with
  | .error e => .error e
  | .ok (mi, _sr) =>
    let model_input := if mi.ndim = 1 then expandDims0 mi else mi
    let tfOut := moduleCallFn model_input
    match exceptMapM
        (processBName cfg.base.average_over_time cfg.embedding_length tfOut)
        (cfg.embedding_names.zip cfg.output_keys) with
    | .error e => .error e
    | .ok out_dict => .ok (k, ex, out_dict)

/-- Extra configuration of `ChunkAudioAndComputeEmbeddings.__init__`
(Stage C). -/
structure ConfigC where
  b : ConfigB
  label_key : Option String
  speaker_id_key : Option String
  compute_embeddings_on_chunked_audio : Bool
deriving DecidableEq, Repr, Inhabited

/-- `_get_label`: key-presence check, then an integer-encoded value is
rendered in decimal (`str(v).encode`), otherwise the first byte-string is
taken; the trailing `assert label` rejects an empty result. -/
def get_label (label_key : String) (ex : TFExample) : Except Err String :=
  match ex.getFeature label_key with
  | none => .error (.missingField label_key)
  | some f =>
    if f.int64_list ≠ [] then
      let label := pyStrOfInt (f.int64_list.headD 0)
      if label = "" then .error .assertionFailed else .ok label
    else
      match f.bytes_list with
      | [] => .error .assertionFailed
      | b :: _ => if b = "" then .error .assertionFailed else .ok b

/-- `_get_speaker_id`: key-presence check, then
`bytes_list.value[0]` (an `IndexError` when the list is empty) and the
non-empty assertion. -/
def get_speaker_id (speaker_id_key : String) (ex : TFExample) : Except Err String :=
  match ex.getFeature speaker_id_key with
  | none => .error (.missingField speaker_id_key)
  | some f =>
    match f.bytes_list with
    | [] => .error .indexError
    | s :: _ => if s = "" then .error .assertionFailed else .ok s

/-- The Stage C per-embedding assertion block (lines 327-335): 3-D, float32,
first axis equal to the number of chunks, configured embedding length on the
last axis, and a singleton time axis when time-averaging is on. -/
def checkEmb3 (n : Nat) (avg : Bool) (elen : Option Nat) (x : PyArray) : Bool :=
  x.ndim == 3 && x.dtype == DType.float32 && x.data.shape.headD 0 == n
    && (!truthyNat elen || x.data.shape.getD 2 0 == elen.getD 0)
    && (!avg || x.data.shape.getD 1 0 == 1)

/-- One Stage C output record:
`(chunk key, chunk audio, label, speaker id, named embedding slices)`. -/
structure OutRecC where
  key : String
  audio : PyArray
  label : Option String
  speaker_id : Option String
  embs : List (String × PyArray)
deriving DecidableEq, Repr, Inhabited

/-- The Stage C emission loop (lines 351-356): one record per chunk, pairing
chunk `i`'s audio with the `i`-th slice of each named embedding and the
shared label and speaker id. -/
def mkOutputsC (k : String) (chnkd_audio : PyArray) (label speaker_id : Option String)
    (names : List String) (embedding_3ds : List PyArray) (n : Nat) : List OutRecC :=
  (List.range n).map fun i =>
    ⟨k ++ "_" ++ pyStrOfInt (Int.ofNat i), chnkd_audio.sliceFirst i, label, speaker_id,
      (names.zip embedding_3ds).map fun p => (p.1, p.2.sliceFirst i)⟩

/-- Tail of `ChunkAudioAndComputeEmbeddings.process` (lines 318-356): look
up each output key, validate 3-D, optionally average over time, run the
per-embedding assertion block, extract label and speaker id, and emit one
record per chunk. -/
def processCFinish (cfg : ConfigC) (k : String) (ex : TFExample)
    (chnkd_audio : PyArray) (tfOut : List (String × PyArray)) :
    Except Err (List OutRecC) :=
  match exceptMapM (fun okey =>
      match lookupOut tfOut okey with
      | none => Except.error (Err.keyError okey)
      | some x => Except.ok x)
    cfg.b.output_keys with
  | .error e => .error e
  | .ok cur_embs =>
    if cur_embs.all (fun e => e.ndim == 3) then
      let embedding_3ds := if cfg.b.base.average_over_time then cur_embs.map meanAxis1Keep
        else cur_embs
      let n := chnkd_audio.data.shape.headD 0
      if embedding_3ds.all (checkEmb3 n cfg.b.base.average_over_time cfg.b.embedding_length) then
        match (if truthyStr cfg.label_key then
            (get_label (cfg.label_key.getD "") ex).map some
          else .ok none : Except Err (Option String)) with
        | .error e => .error e
        | .ok label =>
          match (if truthyStr cfg.speaker_id_key then
              (get_speaker_id (cfg.speaker_id_key.getD "") ex).map some
            else .ok none : Except Err (Option String)) with
          | .error e => .error e
          | .ok speaker_id =>
            .ok (mkOutputsC k chnkd_audio label speaker_id cfg.b.embedding_names
              embedding_3ds n)
      else .error .assertionFailed
    else .error (.contract "wrong output dims")

/-- `ChunkAudioAndComputeEmbeddings.process`: chunk the audio, choose the
(dead) alternative model input when the flag is off, call the model on the
chunked audio, then validate, average, extract metadata and emit via
`processCFinish`. -/
def processCE (cfg : ConfigC) (featureFn : Option (List ℚ → Int → PyValue))
    (resampleFn : List ℚ → Int → Int → List ℚ)
    (moduleCallFn : PyArray → List (String × PyArray))
    (k : String) (ex : TFExample) : Except Err (List OutRecC) :=
  match tfex_to_chunked_audio cfg.b featureFn resampleFn k ex with
  | .error e => .error e
  | .ok (a, _sr) =>
    let chnkd_audio := if a.ndim = 1 then expandDims0 a else a
    match (if cfg.compute_embeddings_on_chunked_audio then .ok chnkd_audio
      else (read_and_preprocess_audio cfg.b.base featureFn resampleFn k ex).map Prod.fst) with
    | .error e => .error e
    | .ok _model_input => processCFinish cfg k ex chnkd_audio (moduleCallFn chnkd_audio)

/-- Stage C configuration with the `compute_embeddings_on_chunked_audio`
flag replaced. -/
def setFlagC (cfg : ConfigC) (b : Bool) : ConfigC :=
  ⟨cfg.b, cfg.label_key, cfg.speaker_id_key, b⟩

/-- Stage A configuration with the `average_over_time` flag replaced. -/
def setAvgA (cfg : ConfigA) (b : Bool) : ConfigA :=
  ⟨cfg.name, cfg.audio_key, cfg.sample_rate_key, cfg.sample_rate, b,
    cfg.normalize_to_pm_one, cfg.model_input_min_length, cfg.target_sample_rate⟩

/-- Stage B configuration with the `average_over_time` flag replaced. -/
def setAvgB (cfg : ConfigB) (b : Bool) : ConfigB :=
  ⟨setAvgA cfg.base b, cfg.output_keys, cfg.embedding_names, cfg.chunk_len,
    cfg.embedding_length⟩

/-! ### Helper lemmas -/

theorem natDecimalDigitsAux_ne_nil (fuel n : Nat) : natDecimalDigitsAux (fuel + 1) n ≠ [] := by
  rw [natDecimalDigitsAux]
  split
  · simp
  · simp

theorem pyStrOfInt_ne_empty (n : Int) : pyStrOfInt n ≠ "" := by
  rw [pyStrOfInt]
  split
  · intro h
    have : ("-" ++ String.mk (natDecimalDigits n.natAbs)).data = "".data := by rw [h]
    simp [String.data_append] at this
  · intro h
    have : (String.mk (natDecimalDigits n.toNat)).data = "".data := by rw [h]
    simp at this
    exact natDecimalDigitsAux_ne_nil _ _ this

theorem symPadRight_length (l : List ℚ) (delta : Nat) :
    (symPadRight l delta).length = l.length + delta := by
  simp [symPadRight]

theorem symPadRight_take (l : List ℚ) (delta : Nat) :
    (symPadRight l delta).take l.length = l := by
  simp [symPadRight, List.take_left]

theorem chunksOfAux_length (c : Nat) (hc : c ≠ 0) :
    ∀ (fuel : Nat) (l : List ℚ), l.length ≤ fuel →
      (chunksOfAux fuel l c).length = l.length / c := by
  intro fuel
  induction fuel with
  | zero =>
    intro l hl
    have : l.length = 0 := Nat.le_zero.mp hl
    rw [chunksOfAux, this, Nat.zero_div]
    rfl
  | succ fuel ih =>
    intro l hl
    rw [chunksOfAux]
    split
    · rename_i h
      rcases h with h | h
      · exact absurd h hc
      · simp [Nat.div_eq_of_lt h]
    · rename_i h
      push_neg at h
      have hcle : c ≤ l.length := h.2
      have hfuel : (l.drop c).length ≤ fuel := by
        rw [List.length_drop]
        omega
      rw [List.length_cons, ih (l.drop c) hfuel, List.length_drop]
      rw [Nat.div_eq_sub_div (Nat.pos_of_ne_zero hc) hcle]

theorem chunksOfAux_mem_length (c : Nat) (_hc : c ≠ 0) :
    ∀ (fuel : Nat) (l : List ℚ), l.length ≤ fuel →
      ∀ ch ∈ chunksOfAux fuel l c, ch.length = c := by
  intro fuel
  induction fuel with
  | zero =>
    intro l _ ch hch
    rw [chunksOfAux] at hch
    simp at hch
  | succ fuel ih =>
    intro l hl ch hch
    rw [chunksOfAux] at hch
    split at hch
    · simp at hch
    · rename_i h
      push_neg at h
      rcases List.mem_cons.mp hch with h1 | h1
      · rw [h1, List.length_take]
        omega
      · have hfuel : (l.drop c).length ≤ fuel := by
          rw [List.length_drop]
          omega
        exact ih (l.drop c) hfuel ch h1

theorem chunksOfAux_getD (c : Nat) (_hc : c ≠ 0) :
    ∀ (fuel : Nat) (l : List ℚ) (i : Nat), l.length ≤ fuel →
      i < (chunksOfAux fuel l c).length →
      (chunksOfAux fuel l c).getD i [] = (l.drop (c * i)).take c := by
  intro fuel
  induction fuel with
  | zero =>
    intro l i _ hi
    rw [chunksOfAux] at hi
    simp at hi
  | succ fuel ih =>
    intro l i hl hi
    rw [chunksOfAux] at hi ⊢
    split at hi
    · simp at hi
    · rename_i h
      rw [if_neg h]
      push_neg at h
      match i with
      | 0 => simp
      | i + 1 =>
        have hfuel : (l.drop c).length ≤ fuel := by
          rw [List.length_drop]
          omega
        have hi' : i < (chunksOfAux fuel (l.drop c) c).length := by
          simpa using hi
        have := ih (l.drop c) i hfuel hi'
        simp only [List.getD_cons_succ, this, List.drop_drop]
        rw [Nat.mul_succ, Nat.add_comm]

theorem chunksOf_length (l : List ℚ) (c : Nat) (hc : c ≠ 0) :
    (chunksOf l c).length = l.length / c :=
  chunksOfAux_length c hc l.length l le_rfl

theorem chunksOf_mem_length (l : List ℚ) (c : Nat) (hc : c ≠ 0) :
    ∀ ch ∈ chunksOf l c, ch.length = c :=
  chunksOfAux_mem_length c hc l.length l le_rfl

theorem chunksOf_getD (l : List ℚ) (c : Nat) (hc : c ≠ 0) (i : Nat)
    (hi : i < (chunksOf l c).length) :
    (chunksOf l c).getD i [] = (l.drop (c * i)).take c :=
  chunksOfAux_getD c hc l.length l i le_rfl hi

theorem exceptMapM_ok_forall {α β : Type} {f : α → Except Err β} :
    ∀ {l : List α} {out : List β}, exceptMapM f l = .ok out →
      ∀ y ∈ out, ∃ x ∈ l, f x = .ok y := by
  intro l
  induction l with
  | nil =>
    intro out h y hy
    rw [exceptMapM] at h
    cases h
    simp at hy
  | cons x xs ih =>
    intro out h y hy
    rw [exceptMapM] at h
    cases hfx : f x with
    | error e => rw [hfx] at h; cases h
    | ok y0 =>
      rw [hfx] at h
      cases hrest : exceptMapM f xs with
      | error e => rw [hrest] at h; cases h
      | ok ys =>
        rw [hrest] at h
        cases h
        rcases List.mem_cons.mp hy with h1 | h1
        · exact ⟨x, List.mem_cons_self x xs, by rw [hfx, h1]⟩
        · rcases ih hrest y h1 with ⟨x', hx', hfx'⟩
          exact ⟨x', List.mem_cons_of_mem x hx', hfx'⟩

theorem processBName_ok (avg : Bool) (elen : Option Nat) (tfOut : List (String × PyArray))
    (nameKey : String × String) (p : String × PyArray)
    (h : processBName avg elen tfOut nameKey = .ok p) :
    ∃ cur, lookupOut tfOut nameKey.2 = some cur ∧ p.1 = nameKey.1 ∧
      p.2 = meanChunkThenTime cur := by
  rw [processBName] at h
  cases hl : lookupOut tfOut nameKey.2 with
  | none => rw [hl] at h; cases h
  | some cur =>
    rw [hl] at h
    dsimp only at h
    split at h
    · cases h
    · split at h
      · cases h
      · split at h
        · cases h
        · split at h
          · cases h
          · cases h
            exact ⟨cur, rfl, rfl, rfl⟩

theorem mkOutputsC_length (k : String) (chnkd : PyArray) (label spk : Option String)
    (names : List String) (xs : List PyArray) (n : Nat) :
    (mkOutputsC k chnkd label spk names xs n).length = n := by
  simp [mkOutputsC]

theorem mkOutputsC_getD (k : String) (chnkd : PyArray) (label spk : Option String)
    (names : List String) (xs : List PyArray) (n i : Nat) (hi : i < n) :
    (mkOutputsC k chnkd label spk names xs n).getD i default =
      ⟨k ++ "_" ++ pyStrOfInt (Int.ofNat i), chnkd.sliceFirst i, label, spk,
        (names.zip xs).map fun p => (p.1, p.2.sliceFirst i)⟩ := by
  rw [mkOutputsC, List.getD_eq_getElem?_getD, List.getElem?_map,
    List.getElem?_range hi]
  rfl

theorem mkOutputsC_mem (k : String) (chnkd : PyArray) (label spk : Option String)
    (names : List String) (xs : List PyArray) (n : Nat) :
    ∀ o ∈ mkOutputsC k chnkd label spk names xs n,
      o.label = label ∧ o.speaker_id = spk := by
  intro o ho
  rcases List.mem_map.mp ho with ⟨i, _, rfl⟩
  exact ⟨rfl, rfl⟩

/-! ### Claim theorems -/

/-- C2 (code bug): on a sample-rate feature with both the float and the
integer representation populated but with different list lengths
(`float_list` of length 2, `int64_list` of length 1), resolution raises no
`MalformedRateError` and returns the truncated first float, because the
source tests `len(float_list) ^ len(int64_list)` — a bitwise xor of lengths
— instead of exclusive population. -/
theorem c2_both_populated_no_error :
    read_sample_rate_from_tfexample
        ⟨"stage", "audio", some "sr", none, false, true, none, 16000⟩
        ⟨[("sr", ⟨[44100, 8000], [16000], []⟩)]⟩ = .ok 44100
      ∧ ([(44100 : ℚ), 8000] ≠ []) ∧ ([(16000 : Int)] ≠ []) := by
  decide

/-- C3 counterexample: with `sample_rate_key = None` and `sample_rate = 0`,
exactly one of the two options is set, construction succeeds, and yet
sample-rate resolution raises the configuration error at process/call time
(the call-time guard tests Python truthiness, and `0` is falsy). -/
theorem c3_counterexample :
    initA ⟨"stage", "audio", none, some 0, false, true, none, 16000⟩ =
        .ok ⟨"stage", "audio", none, some 0, false, true, none, 16000⟩
      ∧ read_sample_rate_from_tfexample
          ⟨"stage", "audio", none, some 0, false, true, none, 16000⟩ ⟨[]⟩ =
        .error .configuration := by
  decide

/-- C3 (amended): construction raises `ConfigurationError` exactly when both
or neither of `sample_rate` and `sample_rate_key` are set; and no input
record makes a stage constructed with exactly one of them set to a truthy
value (a non-empty key string, or a non-zero rate) raise a sample-rate
configuration error at process/call time. -/
theorem c3_construction_xor_and_no_call_time_error (cfg : ConfigA) (ex : TFExample) :
    (initA cfg = .error .configuration ↔
      cfg.sample_rate_key.isNone = cfg.sample_rate.isNone)
    ∧ (Bool.xor cfg.sample_rate_key.isNone cfg.sample_rate.isNone = true →
        (truthyStr cfg.sample_rate_key = true ∨ truthyInt cfg.sample_rate = true) →
        read_sample_rate_from_tfexample cfg ex ≠ .error .configuration) := by
  constructor
  · rw [initA]
    cases h1 : cfg.sample_rate_key.isNone <;> cases h2 : cfg.sample_rate.isNone <;>
      simp [Bool.xor]
  · intro hx hor
    rw [read_sample_rate_from_tfexample]
    cases htr : truthyStr cfg.sample_rate_key with
    | false =>
      have hti : truthyInt cfg.sample_rate = true := by
        rcases hor with h | h
        · rw [htr] at h; cases h
        · exact h
      simp [htr, hti]
    | true =>
      simp only [htr, if_true]
      cases hg : ex.getFeature (cfg.sample_rate_key.getD "") with
      | none => simp
      | some f =>
        dsimp only
        split
        · simp
        · split_ifs <;> simp

/-- C3 witness: a stage with only a non-empty `sample_rate_key` configured
is constructed without error and resolution raises no configuration error. -/
theorem c3_witness :
    (initA ⟨"stage", "audio", some "sr", none, false, true, none, 16000⟩ =
          .error .configuration ↔
        (some "sr" : Option String).isNone = (none : Option Int).isNone)
      ∧ read_sample_rate_from_tfexample
          ⟨"stage", "audio", some "sr", none, false, true, none, 16000⟩
          ⟨[("sr", ⟨[], [16000], []⟩)]⟩ ≠ .error .configuration :=
  ⟨(c3_construction_xor_and_no_call_time_error
      ⟨"stage", "audio", some "sr", none, false, true, none, 16000⟩
      ⟨[("sr", ⟨[], [16000], []⟩)]⟩).1,
    (c3_construction_xor_and_no_call_time_error
      ⟨"stage", "audio", some "sr", none, false, true, none, 16000⟩
      ⟨[("sr", ⟨[], [16000], []⟩)]⟩).2 (by decide) (by decide)⟩

/-- C6: without a custom feature projector and with a minimum model-input
length configured, projection is the identity for waveforms at least that
long; shorter (non-empty) waveforms are extended to exactly the minimum
length by symmetric mirror padding, with the original samples as a
contiguous prefix. -/
theorem c6_min_length_symmetric_padding (cfg : ConfigA) (audio : List ℚ) (sr : Int)
    (m : Nat) (hmin : cfg.model_input_min_length = some m) :
    (m ≤ audio.length →
      audio_to_features cfg none audio sr = .ok ⟨.float32, .t1 audio⟩)
    ∧ (audio.length < m → audio ≠ [] →
      audio_to_features cfg none audio sr =
          .ok ⟨.float32, .t1 (symPadRight audio (m - audio.length))⟩
        ∧ (symPadRight audio (m - audio.length)).length = m
        ∧ (symPadRight audio (m - audio.length)).take audio.length = audio) := by
  rw [audio_to_features, hmin]
  dsimp only
  constructor
  · intro hge
    rw [if_neg]
    intro hcon
    omega
  · intro hlt hne
    have hm : m ≠ 0 := by omega
    rw [if_pos ⟨hm, hlt⟩, if_neg (by simpa using hne)]
    refine ⟨rfl, ?_, symPadRight_take audio (m - audio.length)⟩
    rw [symPadRight_length]
    omega

/-- C6 witness: waveform `[1, 2, 3]` with minimum length 5 is padded to
`[1, 2, 3, 3, 2]` (mirror samples, not zeros), and a waveform of length 5
passes through unchanged. -/
theorem c6_witness :
    (audio_to_features ⟨"stage", "audio", none, some 16000, false, true, some 5, 16000⟩
          none [1, 2, 3] 16000 =
        .ok ⟨.float32, .t1 (symPadRight [1, 2, 3] 2)⟩
      ∧ (symPadRight [1, 2, 3] 2).length = 5
      ∧ (symPadRight [1, 2, 3] 2).take 3 = [1, 2, 3])
    ∧ audio_to_features ⟨"stage", "audio", none, some 16000, false, true, some 5, 16000⟩
        none [1, 2, 3, 4, 5] 16000 = .ok ⟨.float32, .t1 [1, 2, 3, 4, 5]⟩ :=
  ⟨(c6_min_length_symmetric_padding _ [1, 2, 3] 16000 5 rfl).2 (by decide) (by decide),
    (c6_min_length_symmetric_padding _ [1, 2, 3, 4, 5] 16000 5 rfl).1 (by decide)⟩

/-- C9: label extraction fails with the missing-field error when the field
is absent; an integer-encoded value `n` yields the decimal byte string of
`n`; a byte-encoded (non-empty) value yields the first byte string; and
every successfully returned label is non-empty. -/
theorem c9_get_label_contract (key : String) (ex : TFExample) :
    (ex.getFeature key = none → get_label key ex = .error (.missingField key))
    ∧ (∀ f n rest, ex.getFeature key = some f → f.int64_list = n :: rest →
        get_label key ex = .ok (pyStrOfInt n))
    ∧ (∀ f b rest, ex.getFeature key = some f → f.int64_list = [] →
        f.bytes_list = b :: rest → b ≠ "" → get_label key ex = .ok b)
    ∧ (∀ l, get_label key ex = .ok l → l ≠ "") := by
  refine ⟨?_, ?_, ?_, ?_⟩
  · intro h
    rw [get_label, h]
  · intro f n rest hf hint
    rw [get_label, hf]
    dsimp only
    rw [hint]
    rw [if_pos (by simp), if_neg (by simpa using pyStrOfInt_ne_empty n)]
    simp
  · intro f b rest hf hint hbytes
    intro hbne
    rw [get_label, hf]
    dsimp only
    rw [hint, hbytes]
    rw [if_neg (by simp)]
    dsimp only
    rw [if_neg hbne]
  · intro l h
    rw [get_label] at h
    cases hf : ex.getFeature key with
    | none => rw [hf] at h; cases h
    | some f =>
      rw [hf] at h
      dsimp only at h
      split at h
      · split at h
        · cases h
        · rename_i hne
          cases h
          exact hne
      · cases hb : f.bytes_list with
        | nil =>
          rw [hb] at h
          dsimp only at h
          cases h
        | cons b rest =>
          rw [hb] at h
          dsimp only at h
          split at h
          · cases h
          · rename_i hne
            cases h
            exact hne

/-- C9 witness: an integer label `3` yields `"3"`, a byte label `"x"` is
returned as-is, a missing field errors, and both returned labels are
non-empty. -/
theorem c9_witness :
    get_label "li" ⟨[("li", ⟨[], [3], []⟩), ("lb", ⟨[], [], ["x"]⟩)]⟩ = .ok (pyStrOfInt 3)
      ∧ get_label "lb" ⟨[("li", ⟨[], [3], []⟩), ("lb", ⟨[], [], ["x"]⟩)]⟩ = .ok "x"
      ∧ get_label "lz" ⟨[("li", ⟨[], [3], []⟩), ("lb", ⟨[], [], ["x"]⟩)]⟩ =
        .error (.missingField "lz")
      ∧ "x" ≠ "" :=
  ⟨(c9_get_label_contract "li" ⟨[("li", ⟨[], [3], []⟩), ("lb", ⟨[], [], ["x"]⟩)]⟩).2.1
      ⟨[], [3], []⟩ 3 [] (by decide) rfl,
    (c9_get_label_contract "lb" ⟨[("li", ⟨[], [3], []⟩), ("lb", ⟨[], [], ["x"]⟩)]⟩).2.2.1
      ⟨[], [], ["x"]⟩ "x" [] (by decide) rfl rfl (by decide),
    (c9_get_label_contract "lz" ⟨[("li", ⟨[], [3], []⟩), ("lb", ⟨[], [], ["x"]⟩)]⟩).1
      (by decide),
    (c9_get_label_contract "lb" ⟨[("li", ⟨[], [3], []⟩), ("lb", ⟨[], [], ["x"]⟩)]⟩).2.2.2
      "x"
      ((c9_get_label_contract "lb" ⟨[("li", ⟨[], [3], []⟩), ("lb", ⟨[], [], ["x"]⟩)]⟩).2.2.1
        ⟨[], [], ["x"]⟩ "x" [] (by decide) rfl rfl (by decide))⟩

/-- C4: in Stage A, whenever the model call returns a value that is not a
numeric array, or not 2-dimensional, or not float32, processing fails with
an `EmbeddingContractViolation`-class error and emits no output record (the
error is raised before the yield). -/
theorem c4_contract_violation_atomic (cfg : ConfigA)
    (featureFn : Option (List ℚ → Int → PyValue))
    (resampleFn : List ℚ → Int → Int → List ℚ)
    (moduleCallFn : PyArray → Int → PyValue)
    (k : String) (ex : TFExample) (mi : PyArray) (sr : Int)
    (hpre : read_and_preprocess_audio cfg featureFn resampleFn k ex = .ok (mi, sr))
    (hbad : violates2dContract (moduleCallFn mi sr) = true) :
    ∃ d, processA cfg featureFn resampleFn moduleCallFn k ex =
      ([], some (.contract d)) := by
  rw [processA, processAE, hpre]
  dsimp only
  cases hv : moduleCallFn mi sr with
  | notArray => exact ⟨"embedding_2d wrong type", rfl⟩
  | ndarray a =>
    rw [hv, violates2dContract] at hbad
    dsimp only
    by_cases hnd : a.ndim = 2
    · have hdt : a.dtype ≠ DType.float32 := by
        simp [hnd] at hbad
        simpa using hbad
      rw [if_neg (by simp [hnd]), if_pos hdt]
      exact ⟨"embedding_2d wrong dtype", rfl⟩
    · rw [if_pos hnd]
      exact ⟨"embedding_2d wrong dims", rfl⟩

/-- C4 witness: the spec scenario of a model stub returning a float64
2-D array: the contract violation fires and no record is emitted. -/
theorem c4_witness :
    read_and_preprocess_audio ⟨"stage", "audio", none, some 16000, false, true, none, 16000⟩
        none (fun a _ _ => a) "k" ⟨[("audio", ⟨[1/2], [], []⟩)]⟩ =
      .ok (⟨.float32, .t1 [1/2]⟩, 16000)
    ∧ violates2dContract
        ((fun _ _ => PyValue.ndarray ⟨.float64, .t2 [[1]]⟩)
          (⟨.float32, .t1 [1/2]⟩ : PyArray) (16000 : Int)) = true
    ∧ ∃ d, processA ⟨"stage", "audio", none, some 16000, false, true, none, 16000⟩
        none (fun a _ _ => a) (fun _ _ => PyValue.ndarray ⟨.float64, .t2 [[1]]⟩)
        "k" ⟨[("audio", ⟨[1/2], [], []⟩)]⟩ = ([], some (.contract d)) :=
  ⟨by decide, by decide,
    c4_contract_violation_atomic
      ⟨"stage", "audio", none, some 16000, false, true, none, 16000⟩
      none (fun a _ _ => a) (fun _ _ => PyValue.ndarray ⟨.float64, .t2 [[1]]⟩)
      "k" ⟨[("audio", ⟨[1/2], [], []⟩)]⟩ ⟨.float32, .t1 [1/2]⟩ 16000
      (by decide) (by decide)⟩

/-- C8: when the resolved sample rate already equals the target rate, the
resampling step is the identity: the waveform handed to feature projection
is exactly the extracted waveform, and the result does not depend on the
resampler at all. -/
theorem c8_resample_noop_when_rates_match (cfg : ConfigA)
    (featureFn : Option (List ℚ → Int → PyValue))
    (resampleFn resampleFn' : List ℚ → Int → Int → List ℚ)
    (k : String) (ex : TFExample) (audio : List ℚ)
    (ha : read_audio_from_tfexample cfg ex k = .ok audio)
    (hr : read_sample_rate_from_tfexample cfg ex = .ok cfg.target_sample_rate) :
    read_and_preprocess_audio cfg featureFn resampleFn k ex =
      (audio_to_features cfg featureFn audio cfg.target_sample_rate).map
        (fun mi => (mi, cfg.target_sample_rate))
    ∧ read_and_preprocess_audio cfg featureFn resampleFn k ex =
      read_and_preprocess_audio cfg featureFn resampleFn' k ex := by
  have key : ∀ rf : List ℚ → Int → Int → List ℚ,
      read_and_preprocess_audio cfg featureFn rf k ex =
        (audio_to_features cfg featureFn audio cfg.target_sample_rate).map
          (fun mi => (mi, cfg.target_sample_rate)) := by
    intro rf
    rw [read_and_preprocess_audio, ha, hr]
    dsimp only
    rw [if_neg (fun h => h rfl), if_neg (fun h => h rfl)]
    cases audio_to_features cfg featureFn audio cfg.target_sample_rate <;> rfl
  exact ⟨key resampleFn, (key resampleFn).trans (key resampleFn').symm⟩

/-- C8 witness: a record whose rate field resolves to the target rate is
preprocessed identically under two different resamplers, and the projected
input is the extracted waveform itself. -/
theorem c8_witness :
    read_and_preprocess_audio ⟨"stage", "audio", some "sr", none, false, true, none, 16000⟩
        none (fun a _ _ => a) "k"
        ⟨[("audio", ⟨[1/2, 1/4], [], []⟩), ("sr", ⟨[], [16000], []⟩)]⟩ =
      (audio_to_features ⟨"stage", "audio", some "sr", none, false, true, none, 16000⟩
          none [1/2, 1/4] 16000).map (fun mi => (mi, 16000))
    ∧ read_and_preprocess_audio ⟨"stage", "audio", some "sr", none, false, true, none, 16000⟩
        none (fun a _ _ => a) "k"
        ⟨[("audio", ⟨[1/2, 1/4], [], []⟩), ("sr", ⟨[], [16000], []⟩)]⟩ =
      read_and_preprocess_audio ⟨"stage", "audio", some "sr", none, false, true, none, 16000⟩
        none (fun _ _ _ => []) "k"
        ⟨[("audio", ⟨[1/2, 1/4], [], []⟩), ("sr", ⟨[], [16000], []⟩)]⟩ :=
  c8_resample_noop_when_rates_match
    ⟨"stage", "audio", some "sr", none, false, true, none, 16000⟩
    none (fun a _ _ => a) (fun _ _ _ => []) "k"
    ⟨[("audio", ⟨[1/2, 1/4], [], []⟩), ("sr", ⟨[], [16000], []⟩)]⟩ [1/2, 1/4]
    (by decide) (by decide)

/-- C10: the Stage C model call always receives the chunked audio: two runs
that differ only in `compute_embeddings_on_chunked_audio` produce identical
results (the alternative model input computed when the flag is off is never
passed to the model). -/
theorem c10_chunked_flag_has_no_effect (cfg : ConfigC)
    (featureFn : Option (List ℚ → Int → PyValue))
    (resampleFn : List ℚ → Int → Int → List ℚ)
    (moduleCallFn : PyArray → List (String × PyArray))
    (k : String) (ex : TFExample) :
    processCE (setFlagC cfg true) featureFn resampleFn moduleCallFn k ex =
      processCE (setFlagC cfg false) featureFn resampleFn moduleCallFn k ex := by
  rw [processCE, processCE]
  dsimp only [setFlagC]
  cases ht : tfex_to_chunked_audio cfg.b featureFn resampleFn k ex with
  | error e => rfl
  | ok p =>
    obtain ⟨a, sr⟩ := p
    have hpre : ∃ q, read_and_preprocess_audio cfg.b.base featureFn resampleFn k ex =
        .ok q := by
      rw [tfex_to_chunked_audio] at ht
      cases hp : read_and_preprocess_audio cfg.b.base featureFn resampleFn k ex with
      | error e => rw [hp] at ht; cases ht
      | ok q => exact ⟨q, rfl⟩
    obtain ⟨q, hq⟩ := hpre
    dsimp only
    rw [hq]
    rfl

/-- C1 counterexample: a Stage B run with `average_over_time = False` and a
model output of shape `(1, 2, 1)` emits the doubly-averaged `[[2]]`, not the
unmodified tensor `[[[1], [3]]]`: the chunk-axis and time-axis mean
reductions are applied even though averaging is disabled. -/
theorem c1_counterexample :
    processBE
        ⟨⟨"stage", "audio", none, some 16000, false, true, none, 16000⟩,
          ["k0"], ["e"], none, none⟩
        none (fun a _ _ => a)
        (fun _ => [("k0", ⟨.float32, .t3 [[[1], [3]]]⟩)])
        "k" ⟨[("audio", ⟨[1/2], [], []⟩)]⟩ =
      .ok ("k", ⟨[("audio", ⟨[1/2], [], []⟩)]⟩, [("e", ⟨.float32, .t2 [[2]]⟩)])
    ∧ (⟨.float32, .t2 [[2]]⟩ : PyArray) ≠ ⟨.float32, .t3 [[[1], [3]]]⟩ := by
  decide

/-- C1 (amended): in Stage B, even when `average_over_time` is false, every
emitted named embedding is the chunk-axis mean followed by the time-axis
mean (with kept dims) of the model output tensor for its output key — the
tensor never passes through unmodified; the flag only enables a batch-dim
check that the reduction makes vacuous. -/
theorem c1_means_always_applied (cfg : ConfigB)
    (featureFn : Option (List ℚ → Int → PyValue))
    (resampleFn : List ℚ → Int → Int → List ℚ)
    (moduleCallFn : PyArray → List (String × PyArray))
    (k : String) (ex : TFExample)
    (out : String × TFExample × List (String × PyArray))
    (_havg : cfg.base.average_over_time = false)
    (h : processBE cfg featureFn resampleFn moduleCallFn k ex = .ok out) :
    ∃ mi sr, tfex_to_chunked_audio cfg featureFn resampleFn k ex = .ok (mi, sr)
      ∧ ∀ p ∈ out.2.2, ∃ okey cur,
          (p.1, okey) ∈ cfg.embedding_names.zip cfg.output_keys
          ∧ lookupOut (moduleCallFn (if mi.ndim = 1 then expandDims0 mi else mi)) okey =
            some cur
          ∧ p.2 = meanChunkThenTime cur := by
  rw [processBE] at h
  split at h
  · cases h
  · rename_i p mi sr heq
    dsimp only at h
    split at h
    · cases h
    · rename_i out_dict hmap
      cases h
      refine ⟨mi, sr, heq, ?_⟩
      intro q hq
      rcases exceptMapM_ok_forall hmap q hq with ⟨x, hxmem, hx⟩
      rcases processBName_ok _ _ _ _ _ hx with ⟨cur, hcur, hq1, hq2⟩
      refine ⟨x.2, cur, ?_, hcur, hq2⟩
      rw [hq1]
      exact hxmem

/-- C1 witness: the amended statement instantiated at the counterexample
run, whose single emitted embedding is the double mean `[[2]]` of the model
tensor `[[[1], [3]]]`. -/
theorem c1_witness :
    ∃ mi sr,
      tfex_to_chunked_audio
          ⟨⟨"stage", "audio", none, some 16000, false, true, none, 16000⟩,
            ["k0"], ["e"], none, none⟩
          none (fun a _ _ => a) "k" ⟨[("audio", ⟨[1/2], [], []⟩)]⟩ = .ok (mi, sr)
      ∧ ∀ p ∈ [(("e" : String), (⟨.float32, .t2 [[2]]⟩ : PyArray))], ∃ okey cur,
          (p.1, okey) ∈ [(("e" : String), ("k0" : String))]
          ∧ lookupOut
              ((fun (_ : PyArray) => [(("k0" : String), (⟨.float32, .t3 [[[1], [3]]]⟩ : PyArray))])
                (if mi.ndim = 1 then expandDims0 mi else mi)) okey = some cur
          ∧ p.2 = meanChunkThenTime cur :=
  c1_means_always_applied
    ⟨⟨"stage", "audio", none, some 16000, false, true, none, 16000⟩,
      ["k0"], ["e"], none, none⟩
    none (fun a _ _ => a)
    (fun _ => [("k0", ⟨.float32, .t3 [[[1], [3]]]⟩)])
    "k" ⟨[("audio", ⟨[1/2], [], []⟩)]⟩
    ("k", ⟨[("audio", ⟨[1/2], [], []⟩)]⟩, [("e", ⟨.float32, .t2 [[2]]⟩)])
    rfl (by decide)

/-- C5: with a chunk length `c` configured, a 1-D model input of length at
least `c` is split into contiguous, non-overlapping chunks of exactly `c`
samples each (`⌊len/c⌋` of them, chunk `i` being samples `c*i ..< c*i+c`);
a shorter input is passed through unchunked, and expanding it yields the
single full-length chunk, with no padding. -/
theorem c5_chunking (cfg : ConfigB)
    (featureFn : Option (List ℚ → Int → PyValue))
    (resampleFn : List ℚ → Int → Int → List ℚ)
    (k : String) (ex : TFExample) (c : Nat) (mi : PyArray) (sr : Int) (l : List ℚ)
    (hclen : cfg.chunk_len = some c) (hc : c ≠ 0)
    (hpre : read_and_preprocess_audio cfg.base featureFn resampleFn k ex = .ok (mi, sr))
    (hdata : mi.data = .t1 l) :
    (c ≤ l.length →
      tfex_to_chunked_audio cfg featureFn resampleFn k ex =
          .ok (⟨mi.dtype, .t2 (chunksOf l c)⟩, sr)
        ∧ (∀ ch ∈ chunksOf l c, ch.length = c)
        ∧ (chunksOf l c).length = l.length / c
        ∧ (∀ i, i < (chunksOf l c).length →
            (chunksOf l c).getD i [] = (l.drop (c * i)).take c))
    ∧ (l.length < c →
      tfex_to_chunked_audio cfg featureFn resampleFn k ex = .ok (mi, sr)
        ∧ expandDims0 mi = ⟨mi.dtype, .t2 [l]⟩) := by
  have htr : truthyNat cfg.chunk_len = true := by
    rw [hclen, truthyNat]
    simpa using hc
  constructor
  · intro hge
    have hshape : mi.data.shape.headD 0 = l.length := by
      rw [hdata, Tensor.shape]
      rfl
    refine ⟨?_, chunksOf_mem_length l c hc, chunksOf_length l c hc,
      fun i hi => chunksOf_getD l c hc i hi⟩
    rw [tfex_to_chunked_audio, hpre]
    dsimp only
    rw [htr, if_pos rfl]
    rw [hclen]
    dsimp only [Option.getD]
    rw [if_pos (by rw [hshape]; exact hge)]
    rw [get_chunked_audio_fn, hdata]
  · intro hlt
    constructor
    · rw [tfex_to_chunked_audio, hpre]
      dsimp only
      rw [htr, if_pos rfl]
      rw [hclen]
      dsimp only [Option.getD]
      rw [if_neg]
      rw [hdata, Tensor.shape]
      dsimp only [List.headD]
      omega
    · rw [expandDims0, hdata]

/-- C5 witness: chunk length 2 on the 5-sample waveform `[1, 2, 3, 4, 5]`
yields the two full chunks `[1, 2]` and `[3, 4]`; a 1-sample waveform with
the same configuration passes through as one unpadded chunk. -/
theorem c5_witness :
    (2 ≤ ([1, 2, 3, 4, 5] : List ℚ).length →
      tfex_to_chunked_audio
          ⟨⟨"stage", "audio", none, some 16000, false, true, none, 16000⟩,
            ["k0"], ["e"], some 2, none⟩
          none (fun a _ _ => a) "k" ⟨[("audio", ⟨[1, 2, 3, 4, 5], [], []⟩)]⟩ =
          .ok (⟨.float32, .t2 (chunksOf [1, 2, 3, 4, 5] 2)⟩, 16000)
        ∧ (∀ ch ∈ chunksOf [1, 2, 3, 4, 5] 2, ch.length = 2)
        ∧ (chunksOf [1, 2, 3, 4, 5] 2).length = ([1, 2, 3, 4, 5] : List ℚ).length / 2
        ∧ (∀ i, i < (chunksOf [1, 2, 3, 4, 5] 2).length →
            (chunksOf [1, 2, 3, 4, 5] 2).getD i [] =
              (([1, 2, 3, 4, 5] : List ℚ).drop (2 * i)).take 2))
    ∧ (([1, 2, 3, 4, 5] : List ℚ).length < 2 →
      tfex_to_chunked_audio
          ⟨⟨"stage", "audio", none, some 16000, false, true, none, 16000⟩,
            ["k0"], ["e"], some 2, none⟩
          none (fun a _ _ => a) "k" ⟨[("audio", ⟨[1, 2, 3, 4, 5], [], []⟩)]⟩ =
          .ok (⟨.float32, .t1 [1, 2, 3, 4, 5]⟩, 16000)
        ∧ expandDims0 ⟨.float32, .t1 [1, 2, 3, 4, 5]⟩ =
          ⟨.float32, .t2 [[1, 2, 3, 4, 5]]⟩) :=
  c5_chunking
    ⟨⟨"stage", "audio", none, some 16000, false, true, none, 16000⟩,
      ["k0"], ["e"], some 2, none⟩
    none (fun a _ _ => a) "k" ⟨[("audio", ⟨[1, 2, 3, 4, 5], [], []⟩)]⟩
    2 ⟨.float32, .t1 [1, 2, 3, 4, 5]⟩ 16000 [1, 2, 3, 4, 5]
    rfl (by decide) (by decide) rfl

/-- Success inversion for the Stage C tail: a successful run emits exactly
the per-chunk records built by `mkOutputsC`, from embedding tensors that all
passed the assertion block. -/
theorem processCFinish_ok (cfg : ConfigC) (k : String) (ex : TFExample)
    (chnkd : PyArray) (tfOut : List (String × PyArray)) (outs : List OutRecC)
    (h : processCFinish cfg k ex chnkd tfOut = .ok outs) :
    ∃ (label speaker_id : Option String) (xs : List PyArray),
      outs = mkOutputsC k chnkd label speaker_id cfg.b.embedding_names xs
          (chnkd.data.shape.headD 0)
      ∧ ∀ x ∈ xs, checkEmb3 (chnkd.data.shape.headD 0) cfg.b.base.average_over_time
          cfg.b.embedding_length x = true := by
  rw [processCFinish] at h
  split at h
  · cases h
  · rename_i cur_embs hmap
    dsimp only at h
    split at h
    · generalize hxs : (if cfg.b.base.average_over_time = true then
          List.map meanAxis1Keep cur_embs else cur_embs) = xs at h
      split at h
      · rename_i hall
        split at h
        · cases h
        · rename_i label hlabel
          split at h
          · cases h
          · rename_i speaker_id hspeaker
            cases h
            exact ⟨label, speaker_id, xs, rfl, fun x hx => List.all_eq_true.mp hall x hx⟩
      · cases h
    · cases h

/-- C7: every successful Stage C run on a record with `n` chunks emits
exactly `n` records; the `i`-th carries the chunk key `key_i`, chunk `i` of
the audio, the `i`-th first-axis slice of every named embedding, and the
label and speaker id shared by all `n` records; and every named embedding
tensor has first axis `n`. -/
theorem c7_one_record_per_chunk (cfg : ConfigC)
    (featureFn : Option (List ℚ → Int → PyValue))
    (resampleFn : List ℚ → Int → Int → List ℚ)
    (moduleCallFn : PyArray → List (String × PyArray))
    (k : String) (ex : TFExample) (outs : List OutRecC)
    (h : processCE cfg featureFn resampleFn moduleCallFn k ex = .ok outs) :
    ∃ (a : PyArray) (sr : Int) (label speaker_id : Option String) (xs : List PyArray),
      tfex_to_chunked_audio cfg.b featureFn resampleFn k ex = .ok (a, sr)
      ∧ outs.length = ((if a.ndim = 1 then expandDims0 a else a).data.shape.headD 0)
      ∧ (∀ x ∈ xs, x.data.shape.headD 0 = outs.length)
      ∧ (∀ i, i < outs.length → outs.getD i default =
          ⟨k ++ "_" ++ pyStrOfInt (Int.ofNat i),
            (if a.ndim = 1 then expandDims0 a else a).sliceFirst i, label, speaker_id,
            (cfg.b.embedding_names.zip xs).map fun p => (p.1, p.2.sliceFirst i)⟩)
      ∧ (∀ o ∈ outs, o.label = label ∧ o.speaker_id = speaker_id) := by
  rw [processCE] at h
  cases heq : tfex_to_chunked_audio cfg.b featureFn resampleFn k ex with
  | error e =>
    rw [heq] at h
    cases h
  | ok p =>
    obtain ⟨a, sr⟩ := p
    rw [heq] at h
    dsimp only at h
    have hfin : processCFinish cfg k ex (if a.ndim = 1 then expandDims0 a else a)
        (moduleCallFn (if a.ndim = 1 then expandDims0 a else a)) = .ok outs := by
      by_cases hf : cfg.compute_embeddings_on_chunked_audio = true
      · simpa [hf] using h
      · cases hrp : read_and_preprocess_audio cfg.b.base featureFn resampleFn k ex with
        | error e =>
          rw [hrp] at h
          simp [hf, Except.map] at h
        | ok q =>
          rw [hrp] at h
          simpa [hf, Except.map] using h
    rcases processCFinish_ok cfg k ex _ _ outs hfin with ⟨label, speaker_id, xs, houts, hall⟩
    subst houts
    refine ⟨a, sr, label, speaker_id, xs, rfl, mkOutputsC_length _ _ _ _ _ _ _, ?_, ?_, ?_⟩
    · intro x hx
      have hck := hall x hx
      simp only [checkEmb3, Bool.and_eq_true, beq_iff_eq] at hck
      rw [mkOutputsC_length]
      exact hck.1.1.2
    · intro i hi
      rw [mkOutputsC_length] at hi
      exact mkOutputsC_getD _ _ _ _ _ _ _ i hi
    · exact mkOutputsC_mem _ _ _ _ _ _ _

/-- C7 witness: the concrete chunked run of the Stage C scenario: two
chunks in, two records out, each with its chunk audio, its embedding slice,
and the shared label and speaker id. -/
theorem c7_witness :
    ∃ (a : PyArray) (sr : Int) (label speaker_id : Option String) (xs : List PyArray),
      tfex_to_chunked_audio
          ⟨⟨"stage", "audio", none, some 16000, false, true, none, 16000⟩,
            ["k0"], ["e"], some 2, none⟩
          none (fun au _ _ => au) "k"
          ⟨[("audio", ⟨[1, 2, 3, 4, 5], [], []⟩),
            ("lbl", ⟨[], [3], []⟩), ("spk", ⟨[], [], ["sp"]⟩)]⟩ = .ok (a, sr)
      ∧ ([⟨"k_0", ⟨.float32, .t1 [1, 2]⟩, some "3", some "sp",
            [("e", ⟨.float32, .t2 [[10], [20]]⟩)]⟩,
          ⟨"k_1", ⟨.float32, .t1 [3, 4]⟩, some "3", some "sp",
            [("e", ⟨.float32, .t2 [[30], [40]]⟩)]⟩] : List OutRecC).length =
          ((if a.ndim = 1 then expandDims0 a else a).data.shape.headD 0)
      ∧ (∀ x ∈ xs, x.data.shape.headD 0 =
          ([⟨"k_0", ⟨.float32, .t1 [1, 2]⟩, some "3", some "sp",
              [("e", ⟨.float32, .t2 [[10], [20]]⟩)]⟩,
            ⟨"k_1", ⟨.float32, .t1 [3, 4]⟩, some "3", some "sp",
              [("e", ⟨.float32, .t2 [[30], [40]]⟩)]⟩] : List OutRecC).length)
      ∧ (∀ i, i < ([⟨"k_0", ⟨.float32, .t1 [1, 2]⟩, some "3", some "sp",
              [("e", ⟨.float32, .t2 [[10], [20]]⟩)]⟩,
            ⟨"k_1", ⟨.float32, .t1 [3, 4]⟩, some "3", some "sp",
              [("e", ⟨.float32, .t2 [[30], [40]]⟩)]⟩] : List OutRecC).length →
          ([⟨"k_0", ⟨.float32, .t1 [1, 2]⟩, some "3", some "sp",
              [("e", ⟨.float32, .t2 [[10], [20]]⟩)]⟩,
            ⟨"k_1", ⟨.float32, .t1 [3, 4]⟩, some "3", some "sp",
              [("e", ⟨.float32, .t2 [[30], [40]]⟩)]⟩] : List OutRecC).getD i default =
          ⟨"k" ++ "_" ++ pyStrOfInt (Int.ofNat i),
            (if a.ndim = 1 then expandDims0 a else a).sliceFirst i, label, speaker_id,
            ((["e"] : List String).zip xs).map fun p => (p.1, p.2.sliceFirst i)⟩)
      ∧ (∀ o ∈ ([⟨"k_0", ⟨.float32, .t1 [1, 2]⟩, some "3", some "sp",
              [("e", ⟨.float32, .t2 [[10], [20]]⟩)]⟩,
            ⟨"k_1", ⟨.float32, .t1 [3, 4]⟩, some "3", some "sp",
              [("e", ⟨.float32, .t2 [[30], [40]]⟩)]⟩] : List OutRecC),
          o.label = label ∧ o.speaker_id = speaker_id) :=
  c7_one_record_per_chunk
    ⟨⟨⟨"stage", "audio", none, some 16000, false, true, none, 16000⟩,
        ["k0"], ["e"], some 2, none⟩,
      some "lbl", some "spk", true⟩
    none (fun au _ _ => au)
    (fun _ => [("k0", ⟨.float32, .t3 [[[10], [20]], [[30], [40]]]⟩)])
    "k"
    ⟨[("audio", ⟨[1, 2, 3, 4, 5], [], []⟩),
      ("lbl", ⟨[], [3], []⟩), ("spk", ⟨[], [], ["sp"]⟩)]⟩
    [⟨"k_0", ⟨.float32, .t1 [1, 2]⟩, some "3", some "sp",
        [("e", ⟨.float32, .t2 [[10], [20]]⟩)]⟩,
      ⟨"k_1", ⟨.float32, .t1 [3, 4]⟩, some "3", some "sp",
        [("e", ⟨.float32, .t2 [[30], [40]]⟩)]⟩]
    (by decide)

end BeamDoFns

example : BeamDoFns.pyStrOfInt 3 = "3" := by decide
example : BeamDoFns.pyStrOfInt (-3) = "-3" := by decide
example : BeamDoFns.pyStrOfInt 0 = "0" := by decide
example : BeamDoFns.symPadRight [1, 2, 3] 8 =
    [1, 2, 3, 3, 2, 1, 1, 2, 3, 3, 2] := by decide
example : BeamDoFns.pyIntOfRat (-7/2) = -3 := by decide
example : BeamDoFns.pyIntOfRat (44100 : ℚ) = 44100 := by decide
example : BeamDoFns.chunksOf [1, 2, 3, 4, 5] 2 = [[1, 2], [3, 4]] := by decide
